import Mathlib

/-!
Verification development for the contract-analysis pipeline
(`services/contract_processor.py`) and its job orchestrator
(`tasks/celery_worker.py`).

The extraction strategies are pure functions of the loaded document, so they
are embedded directly.  External collaborators (the entity-recognition model,
the sentence embedder and the sentence tokenizer) are passed in as function
parameters; the concrete regular expressions of the source are translated into
executable matchers over character lists, with the usual greedy or lazy
backtracking of the engine specialised to the deterministic behaviour these
particular patterns have on inputs without degenerate overlaps.
-/

/-- Whitespace class of the regex engine and of str.strip. -/
def isPyWs (c : Char) : Bool :=
  c = ' ' || c = '\t' || c = '\n' || c = '\r' || c.toNat = 11 || c.toNat = 12

def isAsciiAlpha (c : Char) : Bool :=
  ('a' ≤ c && c ≤ 'z') || ('A' ≤ c && c ≤ 'Z')

def isAsciiDigit (c : Char) : Bool :=
  '0' ≤ c && c ≤ '9'

def isAlnumChar (c : Char) : Bool :=
  isAsciiAlpha c || isAsciiDigit c

def isWordChar (c : Char) : Bool :=
  isAlnumChar c || c = '_'

/-- str.strip over a character list. -/
def pyStripL (l : List Char) : List Char :=
  ((l.dropWhile isPyWs).reverse.dropWhile isPyWs).reverse

/-- str.strip. -/
def pyStripS (s : String) : String :=
  String.mk (pyStripL s.data)

/-- Python slicing s[:n] by characters. -/
def strTake (s : String) (n : Nat) : String :=
  String.mk (s.data.take n)

/-- str.replace of a newline by a space. -/
def collapseNewlines (s : String) : String :=
  String.mk (s.data.map fun c => if c = '\n' then ' ' else c)

/-- Consume a literal case-insensitively (re.IGNORECASE); returns the actual
matched characters and the remainder. -/
def consumeCI : List Char → List Char → Option (List Char × List Char)
  | [], l => some ([], l)
  | _ :: _, [] => none
  | k :: ks, c :: cs =>
    if k.toLower = c.toLower then (consumeCI ks cs).map (fun p => (c :: p.1, p.2)) else none

/-- Split a character list at its first newline. -/
def splitAtNl : List Char → Option (List Char × List Char)
  | [] => none
  | c :: cs => if c = '\n' then some ([], cs) else (splitAtNl cs).map (fun p => (c :: p.1, p.2))

/-- A regex match: the whole matched text (group 0) and the captured groups. -/
structure RegexMatch where
  whole : String
  groups : List String
deriving DecidableEq, Repr

/-- A compiled pattern, as the searching function re.search gives it. -/
abbrev Pattern := String → Option RegexMatch

/-- re.search: try a position matcher at every position, leftmost match wins. -/
def searchFrom (f : List Char → Option RegexMatch) : List Char → Option RegexMatch
  | [] => f []
  | c :: cs =>
    match f (c :: cs) with
    | some m => some m
    | none => searchFrom f cs

/-- Position matcher for the layout regex By:\s*Name:\s*(.*?)\n (DOTALL). -/
def matchSig1 (l : List Char) : Option RegexMatch := do
  let (m1, r1) ← consumeCI "By:".data l
  let w1 := r1.takeWhile isPyWs
  let r2 := r1.dropWhile isPyWs
  let (m2, r3) ← consumeCI "Name:".data r2
  let w2 := r3.takeWhile isPyWs
  let r4 := r3.dropWhile isPyWs
  match splitAtNl r4 with
  | some (pre, _) =>
    some ⟨String.mk (m1 ++ w1 ++ m2 ++ w2 ++ pre ++ ['\n']), [String.mk pre]⟩
  | none =>
    match splitAtNl w2.reverse with
    | some (_, revKeep) =>
      some ⟨String.mk (m1 ++ w1 ++ m2 ++ revKeep.reverse ++ ['\n']), [String.mk []]⟩
    | none => none

/-- Position matcher for the layout regex By:\s*([^\n]+)\n\s*Title: . -/
def matchSig2 (l : List Char) : Option RegexMatch := do
  let (m1, r1) ← consumeCI "By:".data l
  let w1 := r1.takeWhile isPyWs
  let r2 := r1.dropWhile isPyWs
  match splitAtNl r2 with
  | none => none
  | some (grp, r3) =>
    if grp = [] then none
    else do
      let w2 := r3.takeWhile isPyWs
      let r4 := r3.dropWhile isPyWs
      let (m3, _) ← consumeCI "Title:".data r4
      some ⟨String.mk (m1 ++ w1 ++ grp ++ ['\n'] ++ w2 ++ m3), [String.mk grp]⟩

/-- Capture [A-Z][a-z]+ [A-Z][a-z]+ (with IGNORECASE this is letter runs);
returns the captured characters and the remainder. -/
def captureNamePair : List Char → Option (List Char × List Char)
  | [] => none
  | c :: cs =>
    if isAsciiAlpha c then
      let run1 := cs.takeWhile isAsciiAlpha
      let rest1 := cs.dropWhile isAsciiAlpha
      if run1 = [] then none
      else
        match rest1 with
        | ' ' :: d :: ds =>
          if isAsciiAlpha d then
            let run2 := ds.takeWhile isAsciiAlpha
            let rest2 := ds.dropWhile isAsciiAlpha
            if run2 = [] then none
            else some (c :: run1 ++ ' ' :: d :: run2, rest2)
          else none
        | _ => none
    else none

/-- Tail \s*:\s*([A-Z][a-z]+ [A-Z][a-z]+) shared by the representative regex;
returns the consumed characters after the alternation, and the group. -/
def repTail (l : List Char) : Option (List Char × List Char) :=
  let w1 := l.takeWhile isPyWs
  let r1 := l.dropWhile isPyWs
  match r1 with
  | ':' :: r2 =>
    let w2 := r2.takeWhile isPyWs
    let r3 := r2.dropWhile isPyWs
    match captureNamePair r3 with
    | some (grp, _) => some (w1 ++ ':' :: w2 ++ grp, grp)
    | none => none
  | _ => none

/-- Position matcher for
(?:authorized representatives|primary contact|contact for notices)\s*:\s*([A-Z][a-z]+ [A-Z][a-z]+). -/
def matchRep1 (l : List Char) : Option RegexMatch :=
  ["authorized representatives", "primary contact", "contact for notices"].findSome? fun alt =>
    match consumeCI alt.data l with
    | some (m1, r1) =>
      match repTail r1 with
      | some (tail, grp) => some ⟨String.mk (m1 ++ tail), [String.mk grp]⟩
      | none => none
    | none => none

/-- Position matcher for
([A-Z][a-z]+ [A-Z][a-z]+)\s*,?\s*shall be the authorized representatives. -/
def matchRep2 (l : List Char) : Option RegexMatch := do
  let (grp, r1) ← captureNamePair l
  let w1 := r1.takeWhile isPyWs
  let r2 := r1.dropWhile isPyWs
  let comma := match r2 with | ',' :: _ => [','] | _ => ([] : List Char)
  let r3 := match r2 with | ',' :: t => t | _ => r2
  let w2 := r3.takeWhile isPyWs
  let r4 := r3.dropWhile isPyWs
  let (m2, _) ← consumeCI "shall be the authorized representatives".data r4
  some ⟨String.mk (grp ++ w1 ++ comma ++ w2 ++ m2), [String.mk grp]⟩

/-- Position matcher for (Net\s*\d+). -/
def matchPay1 (l : List Char) : Option RegexMatch := do
  let (m1, r1) ← consumeCI "Net".data l
  let w := r1.takeWhile isPyWs
  let r2 := r1.dropWhile isPyWs
  let ds := r2.takeWhile isAsciiDigit
  if ds = [] then none
  else
    let whole := String.mk (m1 ++ w ++ ds)
    some ⟨whole, [whole]⟩

/-- Position matcher for (\d+\s*days from invoice date). -/
def matchPay2 (l : List Char) : Option RegexMatch :=
  match l with
  | [] => none
  | c :: _ =>
    if isAsciiDigit c then
      let ds := l.takeWhile isAsciiDigit
      let r1 := l.dropWhile isAsciiDigit
      let w := r1.takeWhile isPyWs
      let r2 := r1.dropWhile isPyWs
      match consumeCI "days from invoice date".data r2 with
      | some (m2, _) =>
        let whole := String.mk (ds ++ w ++ m2)
        some ⟨whole, [whole]⟩
      | none => none
    else none

/-- Position matcher for \$\d+[\.,\d]*\s*(per month|per year|monthly|annually|quarterly). -/
def matchBill (l : List Char) : Option RegexMatch :=
  match l with
  | '$' :: r1 =>
    let ds := r1.takeWhile isAsciiDigit
    if ds = [] then none
    else
      let r2 := r1.dropWhile isAsciiDigit
      let cls := r2.takeWhile (fun c => c = '.' || c = ',' || isAsciiDigit c)
      let r3 := r2.dropWhile (fun c => c = '.' || c = ',' || isAsciiDigit c)
      let w := r3.takeWhile isPyWs
      let r4 := r3.dropWhile isPyWs
      match ["per month", "per year", "monthly", "annually", "quarterly"].findSome?
          (fun alt => consumeCI alt.data r4) with
      | some (m2, _) => some ⟨String.mk ('$' :: ds ++ cls ++ w ++ m2), [String.mk m2]⟩
      | none => none
  | _ => none

/-- Sentence-terminator class [\.!?] of the renewal fallback regex. -/
def isEnder (c : Char) : Bool :=
  c = '.' || c = '!' || c = '?'

/-- (?:term of this agreement|expiration|renew|terminate)[^\.!?]*[\.!?] at the
current position; returns the consumed characters. -/
def renewKwTail (l : List Char) : Option (List Char) :=
  ["term of this agreement", "expiration", "renew", "terminate"].findSome? fun kw => do
    let (m1, r1) ← consumeCI kw.data l
    let run := r1.takeWhile (fun c => !(isEnder c))
    match r1.dropWhile (fun c => !(isEnder c)) with
    | e :: _ => some (m1 ++ run ++ [e])
    | [] => none

/-- Lazy prefix walk of ([^\.!?]*?(?:...keywords...)[^\.!?]*[\.!?]). -/
def matchRenewAux (pre : List Char) : List Char → Option RegexMatch
  | [] => none
  | c :: cs =>
    match renewKwTail (c :: cs) with
    | some consumed =>
      let whole := String.mk (pre.reverse ++ consumed)
      some ⟨whole, [whole]⟩
    | none => if isEnder c then none else matchRenewAux (c :: pre) cs

def matchRenew (l : List Char) : Option RegexMatch :=
  matchRenewAux [] l

def sigPattern1 : Pattern := fun s => searchFrom matchSig1 s.data

def sigPattern2 : Pattern := fun s => searchFrom matchSig2 s.data

def repPattern1 : Pattern := fun s => searchFrom matchRep1 s.data

def repPattern2 : Pattern := fun s => searchFrom matchRep2 s.data

def payPattern1 : Pattern := fun s => searchFrom matchPay1 s.data

def payPattern2 : Pattern := fun s => searchFrom matchPay2 s.data

def billPattern : Pattern := fun s => searchFrom matchBill s.data

def renewPattern : Pattern := fun s => searchFrom matchRenew s.data

/-- Values stored in found fields: plain strings, or the classification dict
of the semantic renewal strategy. -/
inductive FieldValue where
  | str : String → FieldValue
  | renewal : (classification : String) → (text : String) → FieldValue
deriving DecidableEq, Repr

/-- One strategy's candidate for a field (the dicts built by the processor). -/
structure FieldCandidate where
  value : FieldValue
  confidence_score : ℚ
  source_snippet : Option String := none
deriving DecidableEq, Repr

/-- match.group(g): group 0 is the whole match. -/
def matchGroup (m : RegexMatch) (g : Nat) : String :=
  if g = 0 then m.whole else m.groups.getD (g - 1) ""

/-- ContractProcessor._find_field_regex. -/
def findFieldRegex (text : String) (patterns : List Pattern) (confidence : ℚ)
    (group : Nat := 1) : Option FieldCandidate :=
  match patterns with
  | [] => none
  | p :: ps =>
    match p text with
    | some m =>
      if group ≤ m.groups.length then
        some ⟨.str (collapseNewlines (pyStripS (matchGroup m group))), confidence,
              some (strTake (pyStripS m.whole) 250)⟩
      else findFieldRegex text ps confidence group
    | none => findFieldRegex text ps confidence group

/-- The per-job read-only view of the document: full text (PyMuPDF), per-page
text (PyMuPDF), page count, and the text extracted from the bottom-30% crop of
the last page (pdfplumber; none models an exception or a missing page). -/
structure Document where
  fullText : String
  pages : List String
  numPages : Nat
  zoneText : Option String

/-- The found_fields dict, one optional slot per canonical key. -/
structure FoundFields where
  customer_name : Option FieldCandidate := none
  vendor_name : Option FieldCandidate := none
  signature_block_signatory : Option FieldCandidate := none
  textual_representative : Option FieldCandidate := none
  authorized_signatory : Option FieldCandidate := none
  payment_terms : Option FieldCandidate := none
  billing_cycle : Option FieldCandidate := none
  renewal_terms : Option FieldCandidate := none
deriving DecidableEq, Repr

/-- ContractProcessor._extract_with_ner_and_context; ner yields the ORG entity
texts of the text it is given, in document order. -/
def extractWithNerAndContext (ner : String → List String) (fullText : String)
    (f : FoundFields) : FoundFields :=
  let chunk := strTake fullText 50000
  let orgs := (ner chunk).map pyStripS
  let f1 :=
    if 2 ≤ orgs.length then
      { f with customer_name := some ⟨.str (orgs.getD 0 ""), (mkRat 3 4), none⟩,
               vendor_name := some ⟨.str (orgs.getD 1 ""), (mkRat 3 4), none⟩ }
    else f
  { f1 with textual_representative := findFieldRegex fullText [repPattern1, repPattern2] (mkRat 4 5) }

/-- ContractProcessor._extract_with_regex. -/
def extractWithRegex (fullText : String) (f : FoundFields) : FoundFields :=
  let f1 := { f with payment_terms := findFieldRegex fullText [payPattern1, payPattern2] (mkRat 19 20) }
  { f1 with billing_cycle := findFieldRegex fullText [billPattern] (mkRat 23 25) 0 }

/-- ContractProcessor._find_signatory_by_layout. -/
def findSignatoryByLayout (doc : Document) : Option FieldCandidate :=
  match doc.zoneText with
  | none => none
  | some t =>
    if t = "" then none
    else
      match findFieldRegex t [sigPattern1, sigPattern2] (mkRat 49 50) with
      | some c =>
        let snip := "Found in signature zone on page " ++ toString doc.numPages ++ ": "
          ++ c.source_snippet.getD ""
        some { c with source_snippet := some snip }
      | none => none

/-- ContractProcessor._extract_with_layout_parser. -/
def extractWithLayout (doc : Document) (f : FoundFields) : FoundFields :=
  { f with signature_block_signatory := findSignatoryByLayout doc }

/-- The running best_match dict of the chunked semantic classifier. -/
structure BestMatch where
  score : ℚ
  sentence : Option String
  category : Option String
deriving DecidableEq, Repr

def renewalCategories : List String :=
  ["Affirmative Renewal", "Negative Renewal", "Conditional Renewal"]

/-- Whether a keyword matches at this position with a word boundary after it. -/
def boundaryKw (kw : List Char) (l : List Char) : Bool :=
  match consumeCI kw l with
  | some (_, rest) =>
    match rest with
    | [] => true
    | c :: _ => !isWordChar c
  | none => false

/-- Scan for \b(renew|term|terminate|evergreen)\b, carrying whether the
previous character was a word character. -/
def hasRenewalKeywordAux (prev : Bool) : List Char → Bool
  | [] => false
  | c :: cs =>
    (!prev && (["renew", "term", "terminate", "evergreen"].any fun kw =>
      boundaryKw kw.data (c :: cs))) ||
    hasRenewalKeywordAux (isWordChar c) cs

def hasRenewalKeyword (s : String) : Bool :=
  hasRenewalKeywordAux false s.data

/-- max(zip(scores, range(3))): lexicographic max over (score, index) for the
three category scores, ties going to the larger index. -/
def maxPair3 (t : ℚ × ℚ × ℚ) : ℚ × Nat :=
  if t.2.2 ≥ t.1 ∧ t.2.2 ≥ t.2.1 then (t.2.2, 2)
  else if t.2.1 ≥ t.1 then (t.2.1, 1)
  else (t.1, 0)

/-- One candidate sentence of the semantic loop; scorer gives the cosine
similarities of the sentence against the three fixed category descriptions. -/
def stepSentence (scorer : String → ℚ × ℚ × ℚ) (b : BestMatch) (s : String) : BestMatch :=
  let p := maxPair3 (scorer s)
  if p.1 > b.score then ⟨p.1, some (pyStripS s), some (renewalCategories.getD p.2 "")⟩ else b

/-- The page/sentence loop of _classify_renewal_clause_chunked. -/
def classifyBest (scorer : String → ℚ × ℚ × ℚ) (sentTok : String → List String)
    (pages : List String) : BestMatch :=
  pages.foldl
    (fun b page => ((sentTok page).filter hasRenewalKeyword).foldl (stepSentence scorer) b)
    ⟨0, none, none⟩

/-- ContractProcessor._classify_renewal_clause_chunked. -/
def classifyRenewalChunked (scorer : String → ℚ × ℚ × ℚ) (sentTok : String → List String)
    (pages : List String) : Option FieldCandidate :=
  let b := classifyBest scorer sentTok pages
  if b.score > (mkRat 1 2) then
    some ⟨.renewal (b.category.getD "") (b.sentence.getD ""), b.score, b.sentence⟩
  else none

/-- The broad fallback regex branch of the semantic strategy. -/
def renewalFallback (fullText : String) : Option FieldCandidate :=
  findFieldRegex fullText [renewPattern] (mkRat 7 10) 0

/-- ContractProcessor._extract_with_semantic_classifier. -/
def extractWithSemantic (scorer : String → ℚ × ℚ × ℚ) (sentTok : String → List String)
    (doc : Document) (f : FoundFields) : FoundFields :=
  match classifyRenewalChunked scorer sentTok doc.pages with
  | some c =>
    if c.confidence_score > (mkRat 13 20) then { f with renewal_terms := some c }
    else { f with renewal_terms := renewalFallback doc.fullText }
  | none => { f with renewal_terms := renewalFallback doc.fullText }

/-- The consolidation step of ContractProcessor.process. -/
def consolidate (f : FoundFields) : FoundFields :=
  match f.signature_block_signatory with
  | some c => { f with authorized_signatory := some c }
  | none =>
    match f.textual_representative with
    | some c => { f with authorized_signatory := some c }
    | none => f

/-- The strategy sequence of ContractProcessor.process before consolidation. -/
def buildFields (ner : String → List String) (scorer : String → ℚ × ℚ × ℚ)
    (sentTok : String → List String) (doc : Document) : FoundFields :=
  let f := extractWithNerAndContext ner doc.fullText {}
  let f := extractWithRegex doc.fullText f
  let f := extractWithLayout doc f
  extractWithSemantic scorer sentTok doc f

structure PartyIdentification where
  customer : Option FieldCandidate
  vendor : Option FieldCandidate
  authorized_signatories : Option FieldCandidate
deriving DecidableEq, Repr

structure PaymentStructure where
  payment_terms : Option FieldCandidate
deriving DecidableEq, Repr

structure RevenueClassification where
  billing_cycle : Option FieldCandidate
  renewal_terms : Option FieldCandidate
deriving DecidableEq, Repr

structure StructuredData where
  party_identification : PartyIdentification
  payment_structure : PaymentStructure
  revenue_classification : RevenueClassification
deriving DecidableEq, Repr

structure AnalysisResult where
  extracted_data : StructuredData
  identified_gaps : List String
deriving DecidableEq, Repr

def criticalFieldsChecklist : List String :=
  ["customer_name", "vendor_name", "authorized_signatory", "payment_terms",
   "billing_cycle", "renewal_terms"]

/-- found_fields.get(name) for the checklist keys. -/
def getField (f : FoundFields) (name : String) : Option FieldCandidate :=
  if name = "customer_name" then f.customer_name
  else if name = "vendor_name" then f.vendor_name
  else if name = "authorized_signatory" then f.authorized_signatory
  else if name = "payment_terms" then f.payment_terms
  else if name = "billing_cycle" then f.billing_cycle
  else if name = "renewal_terms" then f.renewal_terms
  else none

/-- ContractProcessor._structure_and_finalize. -/
def structureAndFinalize (f : FoundFields) : AnalysisResult :=
  { extracted_data :=
      { party_identification := ⟨f.customer_name, f.vendor_name, f.authorized_signatory⟩,
        payment_structure := ⟨f.payment_terms⟩,
        revenue_classification := ⟨f.billing_cycle, f.renewal_terms⟩ },
    identified_gaps := criticalFieldsChecklist.filter (fun n => (getField f n).isNone) }

/-- ContractProcessor.process / analyze_contract_advanced. -/
def process (ner : String → List String) (scorer : String → ℚ × ℚ × ℚ)
    (sentTok : String → List String) (doc : Document) : AnalysisResult :=
  structureAndFinalize (consolidate (buildFields ner scorer sentTok doc))

/-- The externally visible contract record mutated by the worker. -/
structure ContractRecord where
  processing_status : String
  progress_percentage : Nat
  progress_message : String
  error_message : Option String := none
  extracted_data : Option StructuredData := none
  identified_gaps : Option (List String) := none
  gaps_count : Option Nat := none
  search_content : Option String := none
deriving DecidableEq, Repr

/-- The record as created at upload. -/
def initialRecord : ContractRecord :=
  ⟨"processing", 0, "", none, none, none, none, none⟩

/-- A progress update ($set of percentage and message). -/
def setProgress (r : ContractRecord) (p : Nat) (m : String) : ContractRecord :=
  { r with progress_percentage := p, progress_message := m }

/-- The terminal error $set of the worker's except branch. -/
def errorUpdate (r : ContractRecord) (e : String) : ContractRecord :=
  { r with processing_status := "error", progress_percentage := 100,
           progress_message := "Processing failed.",
           error_message := some ("An error occurred: " ++ e) }

/-- Path(file_path).name. -/
def pathName (p : String) : String :=
  String.mk ((p.data.reverse.takeWhile (fun c => c ≠ '/')).reverse)

/-- re.sub of [^a-zA-Z0-9] by a space over the filename. -/
def sanitizeFilename (s : String) : String :=
  String.mk (s.data.map fun c => if isAlnumChar c then c else ' ')

/-- re.sub of [^a-zA-Z0-9\s] by the empty string over a party name, then strip. -/
def sanitizePartyName (s : String) : String :=
  pyStripS (String.mk (s.data.filter fun c => isAlnumChar c || isPyWs c))

/-- The nested .get chain on a party leaf: the leaf key is always present, so a
null leaf makes the trailing .get raise. -/
def leafValue : Option FieldCandidate → Except String FieldValue
  | none => .error "NoneType object has no attribute get"
  | some c => .ok c.value

/-- Python truthiness of a stored field value. -/
def valueTruthy : FieldValue → Bool
  | .str s => decide (s ≠ "")
  | .renewal _ _ => true

/-- re.sub needs a string; a dict-valued leaf would raise a TypeError. -/
def sanitizeValue : FieldValue → Except String String
  | .str s => .ok (sanitizePartyName s)
  | .renewal _ _ => .error "expected string or bytes-like object"

/-- The search-token computation of process_contract_task (lines 55-77). -/
def searchContentOf (filePath : String) (res : AnalysisResult) : Except String String :=
  match leafValue res.extracted_data.party_identification.customer with
  | .error e => .error e
  | .ok customerRaw =>
    match leafValue res.extracted_data.party_identification.vendor with
    | .error e => .error e
    | .ok vendorRaw =>
      match (if valueTruthy customerRaw
             then (sanitizeValue customerRaw).map (fun s => [s])
             else .ok ([] : List String)) with
      | .error e => .error e
      | .ok customerToks =>
        match (if valueTruthy vendorRaw
               then (sanitizeValue vendorRaw).map (fun s => [s])
               else .ok ([] : List String)) with
        | .error e => .error e
        | .ok vendorToks =>
          .ok (String.intercalate " "
            ((sanitizeFilename (pathName filePath) :: (customerToks ++ vendorToks)).filter
              fun s => !s.isEmpty))

/-- process_contract_task: the analysis outcome is passed in as an Except so
any exception raised inside the pipeline is represented by its message. -/
def processContractTask (analysis : Except String AnalysisResult) (filePath : String)
    (r0 : ContractRecord) : ContractRecord :=
  let r1 := setProgress r0 10 "Starting contract analysis..."
  let r2 := setProgress r1 20 "Loading NLP models..."
  match analysis with
  | .error e => errorUpdate r2 e
  | .ok res =>
    let r3 := setProgress r2 90 "Finalizing analysis and saving results..."
    match searchContentOf filePath res with
    | .error e => errorUpdate r3 e
    | .ok sc =>
      { r3 with processing_status := "completed", progress_percentage := 100,
                progress_message := "Processing complete.",
                extracted_data := some res.extracted_data,
                identified_gaps := some res.identified_gaps,
                gaps_count := some res.identified_gaps.length,
                search_content := some sc }

/-! ### Lemmas about the generic pattern finder -/

lemma ffr_conf (t : String) (ps : List Pattern) (cf : ℚ) (g : Nat) (r : FieldCandidate)
    (h : findFieldRegex t ps cf g = some r) : r.confidence_score = cf := by
  induction ps with
  | nil => simp [findFieldRegex] at h
  | cons p ps ih =>
    simp only [findFieldRegex] at h
    cases hp : p t with
    | none =>
      simp only [hp] at h
      exact ih h
    | some m =>
      simp only [hp] at h
      by_cases hg : g ≤ m.groups.length
      · rw [if_pos hg] at h
        cases h
        rfl
      · rw [if_neg hg] at h
        exact ih h

lemma ffr_snippet (t : String) (ps : List Pattern) (cf : ℚ) (g : Nat) (r : FieldCandidate)
    (h : findFieldRegex t ps cf g = some r) :
    ∃ s, r.source_snippet = some s ∧ s.length ≤ 250 := by
  induction ps with
  | nil => simp [findFieldRegex] at h
  | cons p ps ih =>
    simp only [findFieldRegex] at h
    cases hp : p t with
    | none =>
      simp only [hp] at h
      exact ih h
    | some m =>
      simp only [hp] at h
      by_cases hg : g ≤ m.groups.length
      · rw [if_pos hg] at h
        cases h
        refine ⟨_, rfl, ?_⟩
        show (String.mk ((pyStripS m.whole).data.take 250)).length ≤ 250
        show ((pyStripS m.whole).data.take 250).length ≤ 250
        rw [List.length_take]
        exact min_le_left _ _
      · rw [if_neg hg] at h
        exact ih h

lemma ffr_none_iff (t : String) (ps : List Pattern) (cf : ℚ) (g : Nat) :
    findFieldRegex t ps cf g = none ↔
      ∀ p ∈ ps, ∀ m, p t = some m → m.groups.length < g := by
  induction ps with
  | nil => simp [findFieldRegex]
  | cons p ps ih =>
    simp only [findFieldRegex, List.forall_mem_cons]
    cases hp : p t with
    | none =>
      simp only [hp]
      constructor
      · intro h
        exact ⟨fun m hm => by simp at hm, ih.mp h⟩
      · intro h
        exact ih.mpr h.2
    | some m =>
      by_cases hg : g ≤ m.groups.length
      · simp only [hp, if_pos hg]
        constructor
        · intro h
          exact absurd h (by simp)
        · intro h
          have := h.1 m rfl
          omega
      · simp only [hp, if_neg hg]
        constructor
        · intro h
          refine ⟨fun m' hm' => ?_, ih.mp h⟩
          cases hm'
          omega
        · intro h
          exact ih.mpr h.2

lemma ffr_first (t : String) (ps₁ : List Pattern) (p : Pattern) (ps₂ : List Pattern)
    (cf : ℚ) (g : Nat) (m : RegexMatch)
    (h1 : ∀ q ∈ ps₁, ∀ m', q t = some m' → m'.groups.length < g)
    (hp : p t = some m) (hg : g ≤ m.groups.length) :
    findFieldRegex t (ps₁ ++ p :: ps₂) cf g =
      some ⟨.str (collapseNewlines (pyStripS (matchGroup m g))), cf,
            some (strTake (pyStripS m.whole) 250)⟩ := by
  induction ps₁ with
  | nil =>
    rw [List.nil_append]
    simp only [findFieldRegex, hp, if_pos hg]
  | cons q qs ih =>
    rw [List.cons_append]
    simp only [findFieldRegex]
    cases hq : q t with
    | none =>
      simp only [hq]
      exact ih (fun r hr => h1 r (List.mem_cons_of_mem _ hr))
    | some m' =>
      have hlt := h1 q (List.mem_cons_self _ _) m' hq
      simp only [hq]
      rw [if_neg (by omega)]
      exact ih (fun r hr => h1 r (List.mem_cons_of_mem _ hr))

/-- C6: for every text, ordered pattern list and confidence, _find_field_regex
returns the first usable match's captured group — stripped, newlines collapsed —
at that confidence with a source snippet of at most 250 characters, trying
patterns in declaration order, or none when no pattern yields a usable match. -/
theorem c6_find_field_regex_contract (text : String) (patterns : List Pattern)
    (confidence : ℚ) (group : Nat) :
    (findFieldRegex text patterns confidence group = none ↔
       ∀ p ∈ patterns, ∀ m, p text = some m → m.groups.length < group) ∧
    (∀ ps₁ p ps₂ m, patterns = ps₁ ++ p :: ps₂ →
       (∀ q ∈ ps₁, ∀ m', q text = some m' → m'.groups.length < group) →
       p text = some m → group ≤ m.groups.length →
       findFieldRegex text patterns confidence group =
         some ⟨.str (collapseNewlines (pyStripS (matchGroup m group))), confidence,
               some (strTake (pyStripS m.whole) 250)⟩) ∧
    (∀ r, findFieldRegex text patterns confidence group = some r →
       r.confidence_score = confidence ∧
       ∃ s, r.source_snippet = some s ∧ s.length ≤ 250) := by
  refine ⟨ffr_none_iff text patterns confidence group, ?_, ?_⟩
  · intro ps₁ p ps₂ m heq h1 hp hg
    rw [heq]
    exact ffr_first text ps₁ p ps₂ confidence group m h1 hp hg
  · intro r h
    exact ⟨ffr_conf text patterns confidence group r h,
           ffr_snippet text patterns confidence group r h⟩

def patNoGroup : Pattern := fun t => if t = "hello" then some ⟨"llo", []⟩ else none

def patWithGroup : Pattern :=
  fun t => if t = "hello" then some ⟨"  By x\n", ["\nJane\nDoe "]⟩ else none

theorem c6_find_field_regex_contract_witness :
    findFieldRegex "hello" [patNoGroup, patWithGroup] (mkRat 1 2) 1 =
      some ⟨.str "Jane Doe", (mkRat 1 2), some "By x"⟩ := by
  have h := (c6_find_field_regex_contract "hello" [patNoGroup, patWithGroup] (mkRat 1 2) 1).2.1
    [patNoGroup] patWithGroup [] ⟨"  By x\n", ["\nJane\nDoe "]⟩ rfl
    (by
      intro q hq m' hm'
      rw [List.mem_singleton] at hq
      subst hq
      rw [show patNoGroup "hello" = some ⟨"llo", ([] : List String)⟩ from rfl] at hm'
      cases hm'
      decide)
    rfl (by decide)
  rw [h]
  rfl

/-! ### Consolidation -/

lemma sem_proj (scorer : String → ℚ × ℚ × ℚ) (sentTok : String → List String)
    (doc : Document) (f : FoundFields) :
    (extractWithSemantic scorer sentTok doc f).customer_name = f.customer_name ∧
    (extractWithSemantic scorer sentTok doc f).vendor_name = f.vendor_name ∧
    (extractWithSemantic scorer sentTok doc f).signature_block_signatory
      = f.signature_block_signatory ∧
    (extractWithSemantic scorer sentTok doc f).textual_representative
      = f.textual_representative ∧
    (extractWithSemantic scorer sentTok doc f).authorized_signatory
      = f.authorized_signatory ∧
    (extractWithSemantic scorer sentTok doc f).payment_terms = f.payment_terms ∧
    (extractWithSemantic scorer sentTok doc f).billing_cycle = f.billing_cycle := by
  unfold extractWithSemantic
  split
  · split <;> exact ⟨rfl, rfl, rfl, rfl, rfl, rfl, rfl⟩
  · exact ⟨rfl, rfl, rfl, rfl, rfl, rfl, rfl⟩

lemma ner_proj (ner : String → List String) (t : String) (f : FoundFields) :
    (extractWithNerAndContext ner t f).signature_block_signatory
      = f.signature_block_signatory ∧
    (extractWithNerAndContext ner t f).authorized_signatory = f.authorized_signatory ∧
    (extractWithNerAndContext ner t f).payment_terms = f.payment_terms ∧
    (extractWithNerAndContext ner t f).billing_cycle = f.billing_cycle ∧
    (extractWithNerAndContext ner t f).renewal_terms = f.renewal_terms := by
  unfold extractWithNerAndContext
  dsimp only
  split <;> exact ⟨rfl, rfl, rfl, rfl, rfl⟩

lemma ner_customer (ner : String → List String) (t : String) (f : FoundFields) :
    (extractWithNerAndContext ner t f).customer_name =
      (if 2 ≤ ((ner (strTake t 50000)).map pyStripS).length
       then some ⟨.str (((ner (strTake t 50000)).map pyStripS).getD 0 ""), (mkRat 3 4), none⟩
       else f.customer_name) := by
  unfold extractWithNerAndContext
  dsimp only
  split <;> rfl

lemma ner_vendor (ner : String → List String) (t : String) (f : FoundFields) :
    (extractWithNerAndContext ner t f).vendor_name =
      (if 2 ≤ ((ner (strTake t 50000)).map pyStripS).length
       then some ⟨.str (((ner (strTake t 50000)).map pyStripS).getD 1 ""), (mkRat 3 4), none⟩
       else f.vendor_name) := by
  unfold extractWithNerAndContext
  dsimp only
  split <;> rfl

lemma ner_textual (ner : String → List String) (t : String) (f : FoundFields) :
    (extractWithNerAndContext ner t f).textual_representative =
      findFieldRegex t [repPattern1, repPattern2] (mkRat 4 5) := rfl

lemma buildFields_auth (ner : String → List String) (scorer : String → ℚ × ℚ × ℚ)
    (sentTok : String → List String) (doc : Document) :
    (buildFields ner scorer sentTok doc).authorized_signatory = none := by
  show (extractWithSemantic scorer sentTok doc
    (extractWithLayout doc (extractWithRegex doc.fullText
      (extractWithNerAndContext ner doc.fullText {})))).authorized_signatory = none
  rw [(sem_proj scorer sentTok doc _).2.2.2.2.1]
  show (extractWithNerAndContext ner doc.fullText {}).authorized_signatory = none
  rw [(ner_proj ner doc.fullText {}).2.1]

/-- C4: consolidation precedence: a present signature_block_signatory is copied
to authorized_signatory; otherwise a present textual_representative is; when
neither is present authorized_signatory keeps its prior value, which is none
after the strategy sequence, since no strategy ever assigns it. -/
theorem c4_consolidation_precedence (f : FoundFields) :
    (∀ c, f.signature_block_signatory = some c →
       (consolidate f).authorized_signatory = some c) ∧
    (f.signature_block_signatory = none → ∀ c, f.textual_representative = some c →
       (consolidate f).authorized_signatory = some c) ∧
    (f.signature_block_signatory = none → f.textual_representative = none →
       (consolidate f).authorized_signatory = f.authorized_signatory) ∧
    (∀ ner scorer sentTok doc,
       (buildFields ner scorer sentTok doc).authorized_signatory = none) := by
  refine ⟨?_, ?_, ?_, fun ner scorer sentTok doc => buildFields_auth ner scorer sentTok doc⟩
  · intro c hc
    simp [consolidate, hc]
  · intro hs c ht
    simp [consolidate, hs, ht]
  · intro hs ht
    simp [consolidate, hs, ht]

def candA : FieldCandidate := ⟨.str "Signed A", (mkRat 49 50), some "zone"⟩

def candB : FieldCandidate := ⟨.str "Rep B", (mkRat 4 5), some "text"⟩

theorem c4_consolidation_precedence_witness :
    (consolidate { signature_block_signatory := some candA,
                   textual_representative := some candB }).authorized_signatory = some candA ∧
    (consolidate { textual_representative := some candB }).authorized_signatory = some candB ∧
    (consolidate {}).authorized_signatory = none := by
  refine ⟨?_, ?_, ?_⟩
  · exact (c4_consolidation_precedence _).1 candA rfl
  · exact (c4_consolidation_precedence _).2.1 rfl candB rfl
  · exact ((c4_consolidation_precedence _).2.2.1 rfl rfl).trans rfl

/-! ### Orchestrator error boundary -/

/-- C2: every exception raised in the pipeline is converted at the task
boundary into a terminal error record: status error, progress 100, and an
error message carrying the exception text verbatim; and whatever happens, the
record the task leaves behind is terminal (completed or error). -/
theorem c2_orchestrator_error_boundary :
    (∀ (e fp : String) (r0 : ContractRecord),
       (processContractTask (.error e) fp r0).processing_status = "error" ∧
       (processContractTask (.error e) fp r0).progress_percentage = 100 ∧
       (processContractTask (.error e) fp r0).error_message =
         some ("An error occurred: " ++ e) ∧
       List.IsInfix e.data ("An error occurred: " ++ e).data) ∧
    (∀ (res : AnalysisResult) (fp : String) (r0 : ContractRecord) (e : String),
       searchContentOf fp res = .error e →
       (processContractTask (.ok res) fp r0).processing_status = "error" ∧
       (processContractTask (.ok res) fp r0).progress_percentage = 100 ∧
       (processContractTask (.ok res) fp r0).error_message =
         some ("An error occurred: " ++ e)) ∧
    (∀ (a : Except String AnalysisResult) (fp : String) (r0 : ContractRecord),
       (processContractTask a fp r0).processing_status = "completed" ∨
       (processContractTask a fp r0).processing_status = "error") := by
  refine ⟨?_, ?_, ?_⟩
  · intro e fp r0
    refine ⟨rfl, rfl, rfl, ⟨"An error occurred: ".data, [], ?_⟩⟩
    rw [List.append_nil, ← String.data_append]
  · intro res fp r0 e h
    simp only [processContractTask, h]
    exact ⟨rfl, rfl, rfl⟩
  · intro a fp r0
    cases a with
    | error e => exact Or.inr rfl
    | ok res =>
      cases hs : searchContentOf fp res with
      | error e =>
        refine Or.inr ?_
        simp only [processContractTask, hs]
        rfl
      | ok sc =>
        refine Or.inl ?_
        simp only [processContractTask, hs]

def resNoCustomer : AnalysisResult :=
  ⟨⟨⟨none, some ⟨.str "Vendor Inc", (mkRat 3 4), none⟩, none⟩, ⟨none⟩, ⟨none, none⟩⟩,
   ["customer_name"]⟩

theorem c2_orchestrator_error_boundary_witness :
    (processContractTask (.error "boom") "a.pdf" initialRecord).processing_status
      = "error" ∧
    (processContractTask (.ok resNoCustomer) "a.pdf" initialRecord).error_message =
      some ("An error occurred: " ++ "NoneType object has no attribute get") := by
  refine ⟨(c2_orchestrator_error_boundary.1 "boom" "a.pdf" initialRecord).1, ?_⟩
  exact (c2_orchestrator_error_boundary.2.1 resNoCustomer "a.pdf" initialRecord
    "NoneType object has no attribute get" rfl).2.2

/-- C3: whenever the customer or the vendor leaf of the analysis result is
null, the search-token step of the task raises, so the job terminates with
status error and never reaches completed, even though extraction succeeded. -/
theorem c3_null_party_leaf_always_errors (res : AnalysisResult) (fp : String)
    (r0 : ContractRecord)
    (h : res.extracted_data.party_identification.customer = none ∨
         res.extracted_data.party_identification.vendor = none) :
    (processContractTask (.ok res) fp r0).processing_status = "error" ∧
    (processContractTask (.ok res) fp r0).processing_status ≠ "completed" := by
  have hs : ∃ e, searchContentOf fp res = .error e := by
    rcases h with h | h
    · exact ⟨"NoneType object has no attribute get",
        by simp only [searchContentOf, h, leafValue]⟩
    · cases hc : res.extracted_data.party_identification.customer with
      | none =>
        exact ⟨"NoneType object has no attribute get",
          by simp only [searchContentOf, hc, leafValue]⟩
      | some c =>
        exact ⟨"NoneType object has no attribute get",
          by simp only [searchContentOf, hc, h, leafValue]⟩
  obtain ⟨e, hs⟩ := hs
  have hstat : (processContractTask (.ok res) fp r0).processing_status = "error" := by
    simp only [processContractTask, hs]
    rfl
  refine ⟨hstat, ?_⟩
  rw [hstat]
  decide

def resNoVendor : AnalysisResult :=
  ⟨⟨⟨some ⟨.str "Acme Corp", (mkRat 3 4), none⟩, none, none⟩, ⟨none⟩, ⟨none, none⟩⟩,
   ["vendor_name"]⟩

theorem c3_null_party_leaf_always_errors_witness :
    (processContractTask (.ok resNoVendor) "b.pdf" initialRecord).processing_status
      = "error" ∧
    (processContractTask (.ok resNoVendor) "b.pdf" initialRecord).processing_status
      ≠ "completed" :=
  c3_null_party_leaf_always_errors resNoVendor "b.pdf" initialRecord (Or.inr rfl)

/-! ### The empty document -/

def emptyDocument : Document := ⟨"", [], 0, none⟩

/-- C1: on an empty document the pipeline itself reports the full 6-field
checklist as gaps with every leaf null (present under its key in the tree
structure); but the worker then raises on the null customer leaf, so the
record is stored as a terminal error and the gaps count of 6 is never
written — contradicting the specified completed record. -/
theorem c1_empty_document_pipeline_and_store :
    process (fun _ => []) (fun _ => (0, 0, 0)) (fun _ => []) emptyDocument =
      ⟨⟨⟨none, none, none⟩, ⟨none⟩, ⟨none, none⟩⟩,
       ["customer_name", "vendor_name", "authorized_signatory", "payment_terms",
        "billing_cycle", "renewal_terms"]⟩ ∧
    (processContractTask
        (.ok (process (fun _ => []) (fun _ => (0, 0, 0)) (fun _ => []) emptyDocument))
        "empty.pdf" initialRecord).processing_status = "error" ∧
    (processContractTask
        (.ok (process (fun _ => []) (fun _ => (0, 0, 0)) (fun _ => []) emptyDocument))
        "empty.pdf" initialRecord).gaps_count = none ∧
    (processContractTask
        (.ok (process (fun _ => []) (fun _ => (0, 0, 0)) (fun _ => []) emptyDocument))
        "empty.pdf" initialRecord).search_content = none ∧
    (processContractTask
        (.ok (process (fun _ => []) (fun _ => (0, 0, 0)) (fun _ => []) emptyDocument))
        "empty.pdf" initialRecord).error_message =
      some "An error occurred: NoneType object has no attribute get" := by
  decide

/-! ### Semantic classifier and renewal policy -/

lemma sem_renewal_some_high (scorer : String → ℚ × ℚ × ℚ) (sentTok : String → List String)
    (doc : Document) (f : FoundFields) (c : FieldCandidate)
    (h : classifyRenewalChunked scorer sentTok doc.pages = some c)
    (h2 : c.confidence_score > mkRat 13 20) :
    (extractWithSemantic scorer sentTok doc f).renewal_terms = some c := by
  unfold extractWithSemantic
  simp only [h]
  rw [if_pos h2]

lemma sem_renewal_some_low (scorer : String → ℚ × ℚ × ℚ) (sentTok : String → List String)
    (doc : Document) (f : FoundFields) (c : FieldCandidate)
    (h : classifyRenewalChunked scorer sentTok doc.pages = some c)
    (h2 : ¬ c.confidence_score > mkRat 13 20) :
    (extractWithSemantic scorer sentTok doc f).renewal_terms =
      renewalFallback doc.fullText := by
  unfold extractWithSemantic
  simp only [h]
  rw [if_neg h2]

lemma sem_renewal_none (scorer : String → ℚ × ℚ × ℚ) (sentTok : String → List String)
    (doc : Document) (f : FoundFields)
    (h : classifyRenewalChunked scorer sentTok doc.pages = none) :
    (extractWithSemantic scorer sentTok doc f).renewal_terms =
      renewalFallback doc.fullText := by
  unfold extractWithSemantic
  simp only [h]

lemma classify_some_conf (scorer : String → ℚ × ℚ × ℚ) (sentTok : String → List String)
    (pages : List String) (c : FieldCandidate)
    (h : classifyRenewalChunked scorer sentTok pages = some c) :
    mkRat 1 2 < c.confidence_score ∧
    c.confidence_score = (classifyBest scorer sentTok pages).score := by
  simp only [classifyRenewalChunked] at h
  by_cases hgt : (classifyBest scorer sentTok pages).score > mkRat 1 2
  · rw [if_pos hgt] at h
    cases h
    exact ⟨hgt, rfl⟩
  · rw [if_neg hgt] at h
    exact Option.noConfusion h

lemma classify_none_of_no_kw (scorer : String → ℚ × ℚ × ℚ) (sentTok : String → List String)
    (pages : List String)
    (h : ∀ p ∈ pages, ∀ s ∈ sentTok p, hasRenewalKeyword s = false) :
    classifyRenewalChunked scorer sentTok pages = none := by
  have hbest : classifyBest scorer sentTok pages = ⟨0, none, none⟩ := by
    unfold classifyBest
    induction pages with
    | nil => rfl
    | cons p ps ih =>
      rw [List.foldl_cons]
      have hfilter : (sentTok p).filter hasRenewalKeyword = [] := by
        rw [List.filter_eq_nil_iff]
        intro s hs
        rw [h p (List.mem_cons_self _ _) s hs]
        exact Bool.false_ne_true
      rw [hfilter]
      simp only [List.foldl_nil]
      exact ih (fun q hq s hs => h q (List.mem_cons_of_mem _ hq) s hs)
  simp only [classifyRenewalChunked, hbest]
  rw [if_neg (by decide)]

/-- C5: the chunked semantic classifier yields a candidate only when its best
(sentence, category) score exceeds 0.5, with the raw similarity as its
confidence; renewal_terms is that candidate exactly when its confidence
exceeds 0.65, and otherwise — including whenever no sentence matches a
renewal keyword, in which case the classifier yields absent — it is the
result of the broad fallback regex over the full text at confidence 0.70. -/
theorem c5_two_tier_renewal_policy (scorer : String → ℚ × ℚ × ℚ)
    (sentTok : String → List String) (doc : Document) (f : FoundFields) :
    (∀ c, classifyRenewalChunked scorer sentTok doc.pages = some c →
       mkRat 1 2 < c.confidence_score ∧
       c.confidence_score = (classifyBest scorer sentTok doc.pages).score) ∧
    (∀ c, classifyRenewalChunked scorer sentTok doc.pages = some c →
       mkRat 13 20 < c.confidence_score →
       (extractWithSemantic scorer sentTok doc f).renewal_terms = some c) ∧
    (∀ c, classifyRenewalChunked scorer sentTok doc.pages = some c →
       ¬ mkRat 13 20 < c.confidence_score →
       (extractWithSemantic scorer sentTok doc f).renewal_terms =
         findFieldRegex doc.fullText [renewPattern] (mkRat 7 10) 0) ∧
    (classifyRenewalChunked scorer sentTok doc.pages = none →
       (extractWithSemantic scorer sentTok doc f).renewal_terms =
         findFieldRegex doc.fullText [renewPattern] (mkRat 7 10) 0) ∧
    ((∀ p ∈ doc.pages, ∀ s ∈ sentTok p, hasRenewalKeyword s = false) →
       classifyRenewalChunked scorer sentTok doc.pages = none) := by
  refine ⟨?_, ?_, ?_, ?_, ?_⟩
  · intro c h
    exact classify_some_conf scorer sentTok doc.pages c h
  · intro c h h2
    exact sem_renewal_some_high scorer sentTok doc f c h h2
  · intro c h h2
    exact sem_renewal_some_low scorer sentTok doc f c h h2
  · intro h
    exact sem_renewal_none scorer sentTok doc f h
  · intro h
    exact classify_none_of_no_kw scorer sentTok doc.pages h

def scorerW : String → ℚ × ℚ × ℚ := fun _ => (mkRat 9 10, mkRat 1 10, mkRat 2 10)

def tokW : String → List String := fun p => [p]

def docRenew : Document := ⟨"It will renew soon", ["It will renew soon"], 1, none⟩

def candRenew : FieldCandidate :=
  ⟨.renewal "Affirmative Renewal" "It will renew soon", mkRat 9 10,
   some "It will renew soon"⟩

def docPlain : Document := ⟨"hello.", ["hello."], 1, none⟩

theorem c5_two_tier_renewal_policy_witness :
    (mkRat 1 2 < candRenew.confidence_score ∧
     candRenew.confidence_score = (classifyBest scorerW tokW docRenew.pages).score) ∧
    (extractWithSemantic scorerW tokW docRenew {}).renewal_terms = some candRenew ∧
    (extractWithSemantic scorerW tokW docPlain {}).renewal_terms =
      findFieldRegex docPlain.fullText [renewPattern] (mkRat 7 10) 0 := by
  refine ⟨(c5_two_tier_renewal_policy scorerW tokW docRenew {}).1 candRenew (by decide),
          (c5_two_tier_renewal_policy scorerW tokW docRenew {}).2.1 candRenew
            (by decide) (by decide), ?_⟩
  have hnone := (c5_two_tier_renewal_policy scorerW tokW docPlain {}).2.2.2.2 (by
    intro p hp s hs
    rw [show docPlain.pages = ["hello."] from rfl, List.mem_singleton] at hp
    subst hp
    rw [show tokW "hello." = ["hello."] from rfl, List.mem_singleton] at hs
    subst hs
    decide)
  exact (c5_two_tier_renewal_policy scorerW tokW docPlain {}).2.2.2.1 hnone

/-! ### Confidence bounds -/

lemma maxPair3_fst_le_one (t : ℚ × ℚ × ℚ) (h1 : t.1 ≤ 1) (h2 : t.2.1 ≤ 1)
    (h3 : t.2.2 ≤ 1) : (maxPair3 t).1 ≤ 1 := by
  unfold maxPair3
  split_ifs
  · exact h3
  · exact h2
  · exact h1

lemma step_score_le_one (scorer : String → ℚ × ℚ × ℚ)
    (hb : ∀ s, (scorer s).1 ≤ 1 ∧ (scorer s).2.1 ≤ 1 ∧ (scorer s).2.2 ≤ 1)
    (b : BestMatch) (s : String) (h : b.score ≤ 1) :
    (stepSentence scorer b s).score ≤ 1 := by
  unfold stepSentence
  dsimp only
  split_ifs
  · exact maxPair3_fst_le_one _ (hb s).1 (hb s).2.1 (hb s).2.2
  · exact h

lemma foldl_step_le_one (scorer : String → ℚ × ℚ × ℚ)
    (hb : ∀ s, (scorer s).1 ≤ 1 ∧ (scorer s).2.1 ≤ 1 ∧ (scorer s).2.2 ≤ 1)
    (l : List String) (b : BestMatch) (h : b.score ≤ 1) :
    (l.foldl (stepSentence scorer) b).score ≤ 1 := by
  induction l generalizing b with
  | nil => exact h
  | cons s ss ih => exact ih _ (step_score_le_one scorer hb b s h)

lemma classifyBest_le_one (scorer : String → ℚ × ℚ × ℚ) (sentTok : String → List String)
    (pages : List String)
    (hb : ∀ s, (scorer s).1 ≤ 1 ∧ (scorer s).2.1 ≤ 1 ∧ (scorer s).2.2 ≤ 1) :
    (classifyBest scorer sentTok pages).score ≤ 1 := by
  unfold classifyBest
  have : ∀ (ps : List String) (b : BestMatch), b.score ≤ 1 →
      (ps.foldl
        (fun b page => ((sentTok page).filter hasRenewalKeyword).foldl
          (stepSentence scorer) b) b).score ≤ 1 := by
    intro ps
    induction ps with
    | nil => intro b h; exact h
    | cons p pp ih =>
      intro b h
      exact ih _ (foldl_step_le_one scorer hb _ b h)
  exact this pages _ (by decide)

lemma classify_conf_bounds (scorer : String → ℚ × ℚ × ℚ) (sentTok : String → List String)
    (pages : List String) (c : FieldCandidate)
    (hb : ∀ s, (scorer s).1 ≤ 1 ∧ (scorer s).2.1 ≤ 1 ∧ (scorer s).2.2 ≤ 1)
    (h : classifyRenewalChunked scorer sentTok pages = some c) :
    0 ≤ c.confidence_score ∧ c.confidence_score ≤ 1 := by
  obtain ⟨hgt, heq⟩ := classify_some_conf scorer sentTok pages c h
  constructor
  · exact le_of_lt (lt_of_le_of_lt (by decide : (0 : ℚ) ≤ mkRat 1 2) hgt)
  · rw [heq]
    exact classifyBest_le_one scorer sentTok pages hb

lemma layout_conf (doc : Document) (c : FieldCandidate)
    (h : findSignatoryByLayout doc = some c) :
    c.confidence_score = mkRat 49 50 := by
  unfold findSignatoryByLayout at h
  cases hz : doc.zoneText with
  | none =>
    rw [hz] at h
    exact Option.noConfusion h
  | some t =>
    simp only [hz] at h
    by_cases ht : t = ""
    · rw [if_pos ht] at h
      exact Option.noConfusion h
    · rw [if_neg ht] at h
      cases hf : findFieldRegex t [sigPattern1, sigPattern2] (mkRat 49 50) with
      | none =>
        simp only [hf] at h
        exact Option.noConfusion h
      | some c' =>
        simp only [hf] at h
        cases h
        exact ffr_conf t [sigPattern1, sigPattern2] (mkRat 49 50) 1 c' hf

lemma consolidate_proj (f : FoundFields) :
    (consolidate f).customer_name = f.customer_name ∧
    (consolidate f).vendor_name = f.vendor_name ∧
    (consolidate f).signature_block_signatory = f.signature_block_signatory ∧
    (consolidate f).textual_representative = f.textual_representative ∧
    (consolidate f).payment_terms = f.payment_terms ∧
    (consolidate f).billing_cycle = f.billing_cycle ∧
    (consolidate f).renewal_terms = f.renewal_terms := by
  unfold consolidate
  split
  · exact ⟨rfl, rfl, rfl, rfl, rfl, rfl, rfl⟩
  · split
    · exact ⟨rfl, rfl, rfl, rfl, rfl, rfl, rfl⟩
    · exact ⟨rfl, rfl, rfl, rfl, rfl, rfl, rfl⟩

lemma consolidate_auth_cases (f : FoundFields) :
    (consolidate f).authorized_signatory = f.signature_block_signatory ∨
    (consolidate f).authorized_signatory = f.textual_representative ∨
    (consolidate f).authorized_signatory = f.authorized_signatory := by
  unfold consolidate
  split
  · rename_i c heq
    exact Or.inl (by rw [heq])
  · split
    · rename_i c heq
      exact Or.inr (Or.inl (by rw [heq]))
    · exact Or.inr (Or.inr rfl)

lemma buildFields_customer (ner : String → List String) (scorer : String → ℚ × ℚ × ℚ)
    (sentTok : String → List String) (doc : Document) :
    (buildFields ner scorer sentTok doc).customer_name =
      (extractWithNerAndContext ner doc.fullText {}).customer_name := by
  show (extractWithSemantic scorer sentTok doc
    (extractWithLayout doc (extractWithRegex doc.fullText
      (extractWithNerAndContext ner doc.fullText {})))).customer_name = _
  rw [(sem_proj scorer sentTok doc _).1]
  rfl

lemma buildFields_vendor (ner : String → List String) (scorer : String → ℚ × ℚ × ℚ)
    (sentTok : String → List String) (doc : Document) :
    (buildFields ner scorer sentTok doc).vendor_name =
      (extractWithNerAndContext ner doc.fullText {}).vendor_name := by
  show (extractWithSemantic scorer sentTok doc
    (extractWithLayout doc (extractWithRegex doc.fullText
      (extractWithNerAndContext ner doc.fullText {})))).vendor_name = _
  rw [(sem_proj scorer sentTok doc _).2.1]
  rfl

lemma buildFields_sig (ner : String → List String) (scorer : String → ℚ × ℚ × ℚ)
    (sentTok : String → List String) (doc : Document) :
    (buildFields ner scorer sentTok doc).signature_block_signatory =
      findSignatoryByLayout doc := by
  show (extractWithSemantic scorer sentTok doc
    (extractWithLayout doc (extractWithRegex doc.fullText
      (extractWithNerAndContext ner doc.fullText {})))).signature_block_signatory = _
  rw [(sem_proj scorer sentTok doc _).2.2.1]
  rfl

lemma buildFields_textual (ner : String → List String) (scorer : String → ℚ × ℚ × ℚ)
    (sentTok : String → List String) (doc : Document) :
    (buildFields ner scorer sentTok doc).textual_representative =
      findFieldRegex doc.fullText [repPattern1, repPattern2] (mkRat 4 5) := by
  show (extractWithSemantic scorer sentTok doc
    (extractWithLayout doc (extractWithRegex doc.fullText
      (extractWithNerAndContext ner doc.fullText {})))).textual_representative = _
  rw [(sem_proj scorer sentTok doc _).2.2.2.1]
  exact ner_textual ner doc.fullText {}

lemma buildFields_payment (ner : String → List String) (scorer : String → ℚ × ℚ × ℚ)
    (sentTok : String → List String) (doc : Document) :
    (buildFields ner scorer sentTok doc).payment_terms =
      findFieldRegex doc.fullText [payPattern1, payPattern2] (mkRat 19 20) := by
  show (extractWithSemantic scorer sentTok doc
    (extractWithLayout doc (extractWithRegex doc.fullText
      (extractWithNerAndContext ner doc.fullText {})))).payment_terms = _
  rw [(sem_proj scorer sentTok doc _).2.2.2.2.2.1]
  rfl

lemma buildFields_billing (ner : String → List String) (scorer : String → ℚ × ℚ × ℚ)
    (sentTok : String → List String) (doc : Document) :
    (buildFields ner scorer sentTok doc).billing_cycle =
      findFieldRegex doc.fullText [billPattern] (mkRat 23 25) 0 := by
  show (extractWithSemantic scorer sentTok doc
    (extractWithLayout doc (extractWithRegex doc.fullText
      (extractWithNerAndContext ner doc.fullText {})))).billing_cycle = _
  rw [(sem_proj scorer sentTok doc _).2.2.2.2.2.2]
  rfl

lemma buildFields_renewal (ner : String → List String) (scorer : String → ℚ × ℚ × ℚ)
    (sentTok : String → List String) (doc : Document) :
    (buildFields ner scorer sentTok doc).renewal_terms =
      (extractWithSemantic scorer sentTok doc
        (extractWithLayout doc (extractWithRegex doc.fullText
          (extractWithNerAndContext ner doc.fullText {})))).renewal_terms := rfl

/-- C10: every candidate present in the consolidated field set carries a
confidence in [0,1] — the fixed values 0.75, 0.80, 0.92, 0.95, 0.98, 0.70, or
a semantic similarity accepted only above 0.5 and bounded by the cosine range —
and signature_block_signatory, when present, has confidence exactly 0.98. -/
theorem c10_confidence_bounds (ner : String → List String) (scorer : String → ℚ × ℚ × ℚ)
    (sentTok : String → List String) (doc : Document)
    (hb : ∀ s, (scorer s).1 ≤ 1 ∧ (scorer s).2.1 ≤ 1 ∧ (scorer s).2.2 ≤ 1) :
    (∀ c, (consolidate (buildFields ner scorer sentTok doc)).customer_name = some c →
       0 ≤ c.confidence_score ∧ c.confidence_score ≤ 1) ∧
    (∀ c, (consolidate (buildFields ner scorer sentTok doc)).vendor_name = some c →
       0 ≤ c.confidence_score ∧ c.confidence_score ≤ 1) ∧
    (∀ c, (consolidate (buildFields ner scorer sentTok doc)).signature_block_signatory
        = some c → 0 ≤ c.confidence_score ∧ c.confidence_score ≤ 1) ∧
    (∀ c, (consolidate (buildFields ner scorer sentTok doc)).textual_representative
        = some c → 0 ≤ c.confidence_score ∧ c.confidence_score ≤ 1) ∧
    (∀ c, (consolidate (buildFields ner scorer sentTok doc)).authorized_signatory
        = some c → 0 ≤ c.confidence_score ∧ c.confidence_score ≤ 1) ∧
    (∀ c, (consolidate (buildFields ner scorer sentTok doc)).payment_terms = some c →
       0 ≤ c.confidence_score ∧ c.confidence_score ≤ 1) ∧
    (∀ c, (consolidate (buildFields ner scorer sentTok doc)).billing_cycle = some c →
       0 ≤ c.confidence_score ∧ c.confidence_score ≤ 1) ∧
    (∀ c, (consolidate (buildFields ner scorer sentTok doc)).renewal_terms = some c →
       0 ≤ c.confidence_score ∧ c.confidence_score ≤ 1) ∧
    (∀ c, (consolidate (buildFields ner scorer sentTok doc)).signature_block_signatory
        = some c → c.confidence_score = mkRat 49 50) := by
  refine ⟨?_, ?_, ?_, ?_, ?_, ?_, ?_, ?_, ?_⟩
  · intro c h
    rw [(consolidate_proj _).1, buildFields_customer, ner_customer] at h
    by_cases hn : 2 ≤ ((ner (strTake doc.fullText 50000)).map pyStripS).length
    · rw [if_pos hn] at h
      cases h
      exact ⟨show (0 : ℚ) ≤ mkRat 3 4 by decide, show (mkRat 3 4 : ℚ) ≤ 1 by decide⟩
    · rw [if_neg hn] at h
      exact Option.noConfusion h
  · intro c h
    rw [(consolidate_proj _).2.1, buildFields_vendor, ner_vendor] at h
    by_cases hn : 2 ≤ ((ner (strTake doc.fullText 50000)).map pyStripS).length
    · rw [if_pos hn] at h
      cases h
      exact ⟨show (0 : ℚ) ≤ mkRat 3 4 by decide, show (mkRat 3 4 : ℚ) ≤ 1 by decide⟩
    · rw [if_neg hn] at h
      exact Option.noConfusion h
  · intro c h
    rw [(consolidate_proj _).2.2.1, buildFields_sig] at h
    rw [layout_conf doc c h]
    exact ⟨by decide, by decide⟩
  · intro c h
    rw [(consolidate_proj _).2.2.2.1, buildFields_textual] at h
    rw [ffr_conf _ _ _ _ _ h]
    exact ⟨by decide, by decide⟩
  · intro c h
    rcases consolidate_auth_cases (buildFields ner scorer sentTok doc) with he | he | he <;>
      rw [he] at h
    · rw [buildFields_sig] at h
      rw [layout_conf doc c h]
      exact ⟨by decide, by decide⟩
    · rw [buildFields_textual] at h
      rw [ffr_conf _ _ _ _ _ h]
      exact ⟨by decide, by decide⟩
    · rw [buildFields_auth] at h
      exact Option.noConfusion h
  · intro c h
    rw [(consolidate_proj _).2.2.2.2.1, buildFields_payment] at h
    rw [ffr_conf _ _ _ _ _ h]
    exact ⟨by decide, by decide⟩
  · intro c h
    rw [(consolidate_proj _).2.2.2.2.2.1, buildFields_billing] at h
    rw [ffr_conf _ _ _ _ _ h]
    exact ⟨by decide, by decide⟩
  · intro c h
    rw [(consolidate_proj _).2.2.2.2.2.2, buildFields_renewal] at h
    cases hc : classifyRenewalChunked scorer sentTok doc.pages with
    | none =>
      rw [sem_renewal_none scorer sentTok doc _ hc] at h
      unfold renewalFallback at h
      rw [ffr_conf _ _ _ _ _ h]
      exact ⟨by decide, by decide⟩
    | some cSem =>
      by_cases hconf : cSem.confidence_score > mkRat 13 20
      · rw [sem_renewal_some_high scorer sentTok doc _ cSem hc hconf] at h
        have hcc : c = cSem := (Option.some_inj.mp h).symm
        subst hcc
        exact classify_conf_bounds scorer sentTok doc.pages _ hb hc
      · rw [sem_renewal_some_low scorer sentTok doc _ cSem hc hconf] at h
        unfold renewalFallback at h
        rw [ffr_conf _ _ _ _ _ h]
        exact ⟨by decide, by decide⟩
  · intro c h
    rw [(consolidate_proj _).2.2.1, buildFields_sig] at h
    exact layout_conf doc c h

def ner0 : String → List String := fun _ => []

def scorer0 : String → ℚ × ℚ × ℚ := fun _ => (0, 0, 0)

def tok0 : String → List String := fun _ => []

def docNet : Document := ⟨"Net 30 due", [], 0, none⟩

theorem c10_confidence_bounds_witness :
    0 ≤ (FieldCandidate.mk (.str "Net 30") (mkRat 19 20) (some "Net 30")).confidence_score ∧
    (FieldCandidate.mk (.str "Net 30") (mkRat 19 20) (some "Net 30")).confidence_score ≤ 1 :=
  (c10_confidence_bounds ner0 scorer0 tok0 docNet
    (fun _ => ⟨show (0 : ℚ) ≤ 1 by decide, show (0 : ℚ) ≤ 1 by decide,
             show (0 : ℚ) ≤ 1 by decide⟩)).2.2.2.2.2.1
    (FieldCandidate.mk (.str "Net 30") (mkRat 19 20) (some "Net 30")) (by decide)

/-! ### Layout extractor -/

def docTwoSigs : Document :=
  ⟨"", [], 1, some "By: Name: Bob\nBy: Name: Jane Doe\n"⟩

/-- C7 counterexample: a crop that contains the line "By: Name: Jane Doe\n"
but only after an earlier signature line yields the earlier signatory, not
"Jane Doe" — the first match wins, refuting the claim quantified over every
document whose crop merely contains that text. -/
theorem c7_contains_counterexample :
    List.IsInfix ("By: Name: Jane Doe\n").data
      ("By: Name: Bob\nBy: Name: Jane Doe\n").data ∧
    findSignatoryByLayout docTwoSigs =
      some ⟨.str "Bob", mkRat 49 50,
            some "Found in signature zone on page 1: By: Name: Bob"⟩ ∧
    "Bob" ≠ "Jane Doe" := by
  refine ⟨⟨"By: Name: Bob\n".data, [], by decide⟩, by decide, by decide⟩

/-- C7 (amended): when the crop text of the last page starts with
"By: Name: Jane Doe\n" — making that line the first signatory-pattern match —
the layout extractor yields value "Jane Doe" at confidence 0.98 with the
snippet prefixed by the page index; an empty crop or a failed crop (modelled
as an absent zone) yields absence, not a failure. -/
theorem c7_layout_extractor_amended (n : Nat) (rest ft : String) (pg : List String) :
    findSignatoryByLayout ⟨ft, pg, n, some ("By: Name: Jane Doe\n" ++ rest)⟩ =
      some ⟨.str "Jane Doe", mkRat 49 50,
            some ("Found in signature zone on page " ++ toString n ++ ": "
                  ++ "By: Name: Jane Doe")⟩ ∧
    findSignatoryByLayout ⟨ft, pg, n, none⟩ = none ∧
    findSignatoryByLayout ⟨ft, pg, n, some ""⟩ = none := by
  exact ⟨rfl, rfl, rfl⟩

/-! ### Context/entity extractor window -/

lemma searchFrom_replicate_space (f : List Char → Option RegexMatch)
    (hf : ∀ l, f (' ' :: l) = none) (n : Nat) (l : List Char) :
    searchFrom f (List.replicate n ' ' ++ l) = searchFrom f l := by
  induction n with
  | zero => rfl
  | succ k ih =>
    rw [List.replicate_succ, List.cons_append]
    simp only [searchFrom, hf]
    exact ih

lemma matchRep1_space (l : List Char) : matchRep1 (' ' :: l) = none := rfl

lemma matchRep2_space (l : List Char) : matchRep2 (' ' :: l) = none := rfl

def longText : String :=
  String.mk (List.replicate 50000 ' ' ++ ("primary contact: John Smith").data)

/-- C8 counterexample: on a text whose only representative phrase lies beyond
the first 50,000 characters, the regex pass still finds it, while the same
pass restricted to the 50,000-character window finds nothing — so that pass
is not bounded to the window. -/
theorem c8_window_counterexample :
    (extractWithNerAndContext ner0 longText {}).textual_representative =
      some ⟨.str "John Smith", mkRat 4 5, some "primary contact: John Smith"⟩ ∧
    findFieldRegex (strTake longText 50000) [repPattern1, repPattern2] (mkRat 4 5)
      = none ∧
    50000 < longText.length := by
  have hdata : longText.data =
      List.replicate 50000 ' ' ++ ("primary contact: John Smith").data := rfl
  refine ⟨?_, ?_, ?_⟩
  · rw [ner_textual ner0 longText {}]
    have h1 : repPattern1 longText =
        some ⟨"primary contact: John Smith", ["John Smith"]⟩ := by
      show searchFrom matchRep1 longText.data = _
      rw [hdata, searchFrom_replicate_space matchRep1 matchRep1_space]
      decide
    have h2 := ffr_first longText [] repPattern1 [repPattern2] (mkRat 4 5) 1
      ⟨"primary contact: John Smith", ["John Smith"]⟩
      (fun q hq => absurd hq (List.not_mem_nil q)) h1 (by decide)
    rw [List.nil_append] at h2
    rw [h2]
    decide
  · have htake : strTake longText 50000 = String.mk (List.replicate 50000 ' ') := by
      show String.mk (longText.data.take 50000) = _
      rw [hdata]
      exact congrArg String.mk (List.take_left' (List.length_replicate 50000 ' '))
    rw [htake]
    have hs1 : repPattern1 (String.mk (List.replicate 50000 ' ')) = none := by
      show searchFrom matchRep1 (List.replicate 50000 ' ') = none
      rw [show List.replicate 50000 ' ' = List.replicate 50000 ' ' ++ ([] : List Char)
            from (List.append_nil _).symm,
          searchFrom_replicate_space matchRep1 matchRep1_space]
      rfl
    have hs2 : repPattern2 (String.mk (List.replicate 50000 ' ')) = none := by
      show searchFrom matchRep2 (List.replicate 50000 ' ') = none
      rw [show List.replicate 50000 ' ' = List.replicate 50000 ' ' ++ ([] : List Char)
            from (List.append_nil _).symm,
          searchFrom_replicate_space matchRep2 matchRep2_space]
      rfl
    refine (ffr_none_iff (String.mk (List.replicate 50000 ' '))
      [repPattern1, repPattern2] (mkRat 4 5) 1).mpr ?_
    intro p hp m hm
    rcases List.mem_cons.mp hp with rfl | hp2
    · rw [hs1] at hm
      exact Option.noConfusion hm
    · rcases List.mem_singleton.mp hp2 with rfl
      rw [hs2] at hm
      exact Option.noConfusion hm
  · have hlen : longText.length = 50027 := by
      show longText.data.length = 50027
      rw [hdata, List.length_append, List.length_replicate]
      rfl
    rw [hlen]
    omega

/-- C8 (amended): the entity-recognition pass is bounded to the first 50,000
characters — customer and vendor depend only on that window, and with at
least two organizations found the first two are assigned at confidence
0.75 — but the representative-seeking regex pass runs over the full text,
not over that window. -/
theorem c8_context_extractor_amended :
    (∀ (ner : String → List String) (t1 t2 : String) (f : FoundFields),
       strTake t1 50000 = strTake t2 50000 →
       (extractWithNerAndContext ner t1 f).customer_name =
         (extractWithNerAndContext ner t2 f).customer_name ∧
       (extractWithNerAndContext ner t1 f).vendor_name =
         (extractWithNerAndContext ner t2 f).vendor_name) ∧
    (∀ (ner : String → List String) (t : String) (f : FoundFields) (o1 o2 : String)
       (rest : List String),
       (ner (strTake t 50000)).map pyStripS = o1 :: o2 :: rest →
       (extractWithNerAndContext ner t f).customer_name =
         some ⟨.str o1, mkRat 3 4, none⟩ ∧
       (extractWithNerAndContext ner t f).vendor_name =
         some ⟨.str o2, mkRat 3 4, none⟩) ∧
    (∀ (ner : String → List String) (t : String) (f : FoundFields),
       (extractWithNerAndContext ner t f).textual_representative =
         findFieldRegex t [repPattern1, repPattern2] (mkRat 4 5)) := by
  refine ⟨?_, ?_, fun ner t f => ner_textual ner t f⟩
  · intro ner t1 t2 f h
    constructor
    · rw [ner_customer, ner_customer, h]
    · rw [ner_vendor, ner_vendor, h]
  · intro ner t f o1 o2 rest h
    constructor
    · rw [ner_customer, h]
      rw [if_pos (by show 2 ≤ rest.length + 1 + 1; omega)]
      rfl
    · rw [ner_vendor, h]
      rw [if_pos (by show 2 ≤ rest.length + 1 + 1; omega)]
      rfl

def nerTwo : String → List String := fun _ => ["Acme Corp", "Beta LLC"]

theorem c8_context_extractor_amended_witness :
    (extractWithNerAndContext nerTwo "contract text" {}).customer_name =
      some ⟨.str "Acme Corp", mkRat 3 4, none⟩ ∧
    (extractWithNerAndContext nerTwo "contract text" {}).vendor_name =
      some ⟨.str "Beta LLC", mkRat 3 4, none⟩ ∧
    (extractWithNerAndContext nerTwo "abc" {}).customer_name =
      (extractWithNerAndContext nerTwo "abc" {}).customer_name := by
  have h := c8_context_extractor_amended.2.1 nerTwo "contract text" {}
    "Acme Corp" "Beta LLC" [] (by decide)
  exact ⟨h.1, h.2, (c8_context_extractor_amended.1 nerTwo "abc" "abc" {} rfl).1⟩

/-! ### Search-token computation -/

def resParties : AnalysisResult :=
  ⟨⟨⟨some ⟨.str "X", mkRat 3 4, none⟩, some ⟨.str "Y", mkRat 3 4, none⟩, none⟩,
    ⟨none⟩, ⟨none, none⟩⟩, []⟩

/-- C9 counterexample: the filename "a..b" sanitizes to "a  b" — two adjacent
dots become two adjacent spaces, which are not collapsed — so the stored
search_content keeps the double space, refuting the claimed whitespace
collapsing. -/
theorem c9_whitespace_not_collapsed :
    (processContractTask (.ok resParties) "a..b" initialRecord).search_content =
      some "a  b X Y" ∧
    "a  b X Y" ≠ "a b X Y" := by
  exact ⟨by decide, by decide⟩

/-- C9 (amended): for a completed job the stored search_content joins, with
single spaces, the non-empty tokens among: the filename with every
non-alphanumeric character replaced by a space (not trimmed, whitespace not
collapsed), and each present, non-empty party name with the characters that
are neither alphanumeric nor whitespace removed and the ends trimmed
(interior whitespace not collapsed). -/
theorem c9_search_content_amended (fp c v : String) (cc vc : ℚ) (cs vs : Option String)
    (auth pay bill ren : Option FieldCandidate) (gaps : List String)
    (r0 : ContractRecord) (hc : c ≠ "") (hv : v ≠ "") :
    (processContractTask
        (.ok ⟨⟨⟨some ⟨.str c, cc, cs⟩, some ⟨.str v, vc, vs⟩, auth⟩, ⟨pay⟩,
              ⟨bill, ren⟩⟩, gaps⟩) fp r0).search_content =
      some (String.intercalate " "
        ((sanitizeFilename (pathName fp) ::
            [sanitizePartyName c, sanitizePartyName v]).filter
          (fun s => !s.isEmpty))) := by
  have hct : valueTruthy (.str c) = true := by
    simp [valueTruthy, hc]
  have hvt : valueTruthy (.str v) = true := by
    simp [valueTruthy, hv]
  have hsc : searchContentOf fp
      (⟨⟨⟨some ⟨.str c, cc, cs⟩, some ⟨.str v, vc, vs⟩, auth⟩, ⟨pay⟩,
        ⟨bill, ren⟩⟩, gaps⟩ : AnalysisResult) =
      .ok (String.intercalate " "
        ((sanitizeFilename (pathName fp) ::
            [sanitizePartyName c, sanitizePartyName v]).filter
          (fun s => !s.isEmpty))) := by
    unfold searchContentOf
    simp only [leafValue, hct, hvt, if_true, sanitizeValue, Except.map]
    rfl
  simp only [processContractTask, hsc]

theorem c9_search_content_amended_witness :
    (processContractTask
        (.ok ⟨⟨⟨some ⟨.str "Acme, Inc.", mkRat 3 4, none⟩,
               some ⟨.str "Globex Corp", mkRat 3 4, none⟩, none⟩, ⟨none⟩,
              ⟨none, none⟩⟩, []⟩) "up/contract-1.pdf" initialRecord).search_content =
      some (String.intercalate " "
        ((sanitizeFilename (pathName "up/contract-1.pdf") ::
            [sanitizePartyName "Acme, Inc.", sanitizePartyName "Globex Corp"]).filter
          (fun s => !s.isEmpty))) :=
  c9_search_content_amended "up/contract-1.pdf" "Acme, Inc." "Globex Corp"
    (mkRat 3 4) (mkRat 3 4) none none none none none none [] initialRecord
    (by decide) (by decide)
